import Mathlib

/-!
Shallow embedding of the sermon search engine of this repository
(files `src/sermon.py` and `src/sermon_search_app.py`).

Python strings are modelled as `List Char`.  The Python string primitives
the code uses (`str.lower`, `str.split`, substring membership `in`,
`str.find`, `str.count`, `str.strip`, slicing) are modelled below, each
mirroring CPython semantics on the ASCII texts the application handles.
Scores are modelled as `ℚ` for `sermon.py` (whose increments are the
float `0.5`, exactly representable, so rationals are exact) and as `ℕ`
for `sermon_search_app.py` (whose increments are all integers).
Python `list.sort(key=..., reverse=True)` is a stable sort; it is
modelled by `List.mergeSort` with the comparison `b.score ≤ a.score`,
which is stable in the same sense.
-/

namespace SermonSearch

/-- Whitespace characters recognised by Python `str.split()` and
`str.strip()` (ASCII fragment). -/
def isPySpace (c : Char) : Bool :=
  c = ' ' || c = '\t' || c = '\n' || c = '\r' || c = '\x0b' || c = '\x0c'

/-- Python `str.lower()` (ASCII case mapping, as in the corpus texts). -/
def lower (s : List Char) : List Char := s.map Char.toLower

/-- Helper for `pySplit`: `acc` holds the current token, reversed. -/
def pySplitAux : List Char → List Char → List (List Char)
  | acc, [] => if acc.isEmpty then [] else [acc.reverse]
  | acc, c :: rest =>
    if isPySpace c then
      if acc.isEmpty then pySplitAux [] rest
      else acc.reverse :: pySplitAux [] rest
    else pySplitAux (c :: acc) rest

/-- Python `str.split()` with no argument: split on runs of whitespace,
dropping empty tokens. -/
def pySplit (s : List Char) : List (List Char) := pySplitAux [] s

/-- Python substring membership `sub in s`. -/
def pyIn (sub : List Char) : List Char → Bool
  | [] => sub.isEmpty
  | c :: rest => sub.isPrefixOf (c :: rest) || pyIn sub rest

/-- Python `s.find(sub)`: index of the first occurrence, `-1` when absent. -/
def pyFind (sub : List Char) : List Char → Int
  | [] => if sub.isEmpty then 0 else -1
  | c :: rest =>
    if sub.isPrefixOf (c :: rest) then 0
    else
      let r := pyFind sub rest
      if r = -1 then -1 else r + 1

/-- Helper for `pyCount`: greedy left-to-right scan; after a match the
scan skips past the matched occurrence, tracked by the skip counter `k`
(the matched occurrence's first character is consumed by the cons, so
`sub.length - 1` further characters are skipped). -/
def pyCountAux (sub : List Char) : List Char → Nat → Nat
  | [], _ => 0
  | c :: rest, 0 =>
    if sub.isPrefixOf (c :: rest) then 1 + pyCountAux sub rest (sub.length - 1)
    else pyCountAux sub rest 0
  | _ :: rest, k + 1 => pyCountAux sub rest k

/-- Python `s.count(sub)`: number of non-overlapping occurrences, scanning
left to right (for empty `sub`, Python returns `len(s) + 1`). -/
def pyCount (sub : List Char) (s : List Char) : Nat :=
  if sub.isEmpty then s.length + 1 else pyCountAux sub s 0

/-- Python `str.strip()`: remove leading and trailing whitespace. -/
def pyStrip (s : List Char) : List Char :=
  ((s.dropWhile isPySpace).reverse.dropWhile isPySpace).reverse

/-- Python slice `s[a:b]` for `0 ≤ a`, clipping as Python does. -/
def pySlice (s : List Char) (a b : Nat) : List Char := (s.drop a).take (b - a)

/-- The literal `"..."` appended and prepended by the excerpt builders. -/
def dots : List Char := [ '.', '.', '.' ]

/-- A corpus record, as read by both variants through `sermon.get(...)`
with defaults: every missing field defaults to the empty string / zero
(`sermon.py` lines 83-85 and 114-121, `sermon_search_app.py`
lines 124-125 and 157-162). -/
structure Sermon where
  title : List Char := []
  date : List Char := []
  url : List Char := []
  word_count : Nat := 0
  description : List Char := []
  transcript : List Char := []
deriving DecidableEq

/-- One entry of the list returned by `search_sermons` in `sermon.py`
(lines 114-121). -/
structure ResultV1 where
  title : List Char
  date : List Char
  url : List Char
  word_count : Nat
  excerpt : List Char
  score : ℚ
deriving DecidableEq

/-- The first-matching-word loop of `find_best_excerpt` (`sermon.py`
lines 137-144): the first query word longer than 3 characters found in
the lowered transcript gives the position; `-1` when none is found. -/
def bestPosition (transcript_lower : List Char) : List (List Char) → Int
  | [] => -1
  | word :: ws =>
    if 3 < word.length then
      let pos := pyFind word transcript_lower
      if pos ≠ -1 then pos else bestPosition transcript_lower ws
    else bestPosition transcript_lower ws

/-- The start word-boundary loop of `find_best_excerpt` (`sermon.py`
lines 155-156): while `start > 0` and `transcript[start]` is not a space
or newline, decrement.  The source never reads out of range here; the
model defaults an out-of-range read to a space, which stops the loop. -/
def adjStart (t : List Char) : Nat → Nat
  | 0 => 0
  | s + 1 =>
    if t.getD (s + 1) ' ' = ' ' || t.getD (s + 1) ' ' = '\n' then s + 1
    else adjStart t s

/-- Helper for `adjEnd`, scanning the remainder of the transcript. -/
def adjEndAux : List Char → Nat → Nat
  | [], e => e
  | c :: rest, e => if c = ' ' || c = '\n' then e else adjEndAux rest (e + 1)

/-- The end word-boundary loop of `find_best_excerpt` (`sermon.py`
lines 157-158): while `end < len(transcript)` and `transcript[end]` is
not a space or newline, increment. -/
def adjEnd (t : List Char) (e : Nat) : Nat := adjEndAux (t.drop e) e

/-- `find_best_excerpt` (`sermon.py` lines 128-168). -/
def find_best_excerpt (transcript : List Char) (query_words : List (List Char))
    (context_chars : Nat := 300) : List Char :=
  if transcript.isEmpty then []
  else
    let transcript_lower := lower transcript
    let best_position := bestPosition transcript_lower query_words
    if best_position = -1 then
      -- No match found, return beginning
      transcript.take context_chars ++ dots
    else
      let bp := best_position.toNat
      -- Get context around the match, adjusted to word boundaries
      let start := adjStart transcript (bp - context_chars / 2)
      let e := adjEnd transcript (min transcript.length (bp + context_chars / 2))
      let excerpt := pyStrip (pySlice transcript start e)
      -- Add ellipsis
      let excerpt := if 0 < start then dots ++ excerpt else excerpt
      if e < transcript.length then excerpt ++ dots else excerpt

/-- The relevance score computed by `search_sermons` (`sermon.py`
lines 88-105) for one sermon. -/
def score_v1 (query_lower : List Char) (query_words : List (List Char))
    (sermon : Sermon) : ℚ :=
  let title_lower := lower sermon.title
  let transcript_lower := lower sermon.transcript
  -- Title matches are most important
  let score := query_words.foldl
    (fun score word => if pyIn word title_lower then score + 10 else score) 0
  -- Full phrase in transcript
  let score := if pyIn query_lower transcript_lower then score + 5 else score
  -- Individual word matches in transcript (skip short words)
  query_words.foldl
    (fun score word =>
      if 3 < word.length then score + (pyCount word transcript_lower : ℚ) * 0.5
      else score) score

/-- The body of the scoring loop of `search_sermons` (`sermon.py`
lines 82-121) for one sermon: the built result entry, or `none` when the
score is zero and the sermon is skipped. -/
def v1_result (query_lower : List Char) (query_words : List (List Char))
    (sermon : Sermon) : Option ResultV1 :=
  let score := score_v1 query_lower query_words sermon
  -- If no matches, skip this sermon
  if score = 0 then none
  else some
    { title := sermon.title, date := sermon.date, url := sermon.url,
      word_count := sermon.word_count,
      excerpt := find_best_excerpt sermon.transcript query_words,
      score := score }

/-- `search_sermons` (`sermon.py` lines 73-126): score every sermon, skip
zero scores, attach an excerpt, sort by score descending (Python's
`list.sort` is stable), truncate to `max_results`. -/
def search_sermons (sermons : List Sermon) (query : List Char)
    (max_results : Nat := 10) : List ResultV1 :=
  let query_lower := lower query
  let query_words := pySplit query_lower
  let results := sermons.filterMap (v1_result query_lower query_words)
  (results.mergeSort (fun a b => decide (b.score ≤ a.score))).take max_results

/-- The JSON payload of a successful `/api/search` response
(`sermon.py` lines 489-494). -/
structure SearchResponse where
  query : List Char
  total_sermons : Nat
  results_count : Nat
  results : List ResultV1
deriving DecidableEq

/-- `api_search` (`sermon.py` lines 476-494): an empty/missing query is
answered with an HTTP 400 error payload before any scoring; otherwise
the search runs and a well-formed response is returned. -/
def api_search (sermons : List Sermon) (query : List Char)
    (max_results : Nat := 10) : Except (List Char × Nat) SearchResponse :=
  if query.isEmpty then .error (("No query provided".toList), 400)
  else
    let results := search_sermons sermons query max_results
    .ok { query := query, total_sermons := sermons.length,
          results_count := results.length, results := results }

/-- Sentence-boundary punctuation of the regex `[.!?]+\s+` used by
`find_relevant_passages` (`sermon_search_app.py` line 58). -/
def isSentencePunct (c : Char) : Bool := c = '.' || c = '!' || c = '?'

/-- Helper for `splitSentences`, a left-to-right scan equivalent to
`re.split(r'[.!?]+\s+', _)`: a separator is a maximal run of `.!?`
followed by at least one whitespace character; the run and the entire
whitespace run are consumed.  The first argument is true while consuming
separator whitespace; `buf` holds a pending punctuation run (reversed)
whose role (separator or text) is not yet decided; `acc` holds the
current piece (reversed). -/
def splitSentencesAux : Bool → List Char → List Char → List Char → List (List Char)
  | true, _, _, [] => [[]]
  | false, buf, acc, [] => [(buf ++ acc).reverse]
  | true, _, _, c :: rest =>
    if isPySpace c then splitSentencesAux true [] [] rest
    else if isSentencePunct c then splitSentencesAux false [c] [] rest
    else splitSentencesAux false [] [c] rest
  | false, buf, acc, c :: rest =>
    if isSentencePunct c then splitSentencesAux false (c :: buf) acc rest
    else if isPySpace c then
      if buf.isEmpty then splitSentencesAux false [] (c :: acc) rest
      else acc.reverse :: splitSentencesAux true [] [] rest
    else splitSentencesAux false [] (c :: (buf ++ acc)) rest

/-- The sentence split of `find_relevant_passages`
(`sermon_search_app.py` line 58): `re.split(r'[.!?]+\s+', transcript)`. -/
def splitSentences (transcript : List Char) : List (List Char) :=
  splitSentencesAux false [] [] transcript

/-- One element of the scored sentence list of `find_relevant_passages`
(`sermon_search_app.py` lines 78-82). -/
structure ScoredSentence where
  text : List Char
  score : Nat
  position : Int
deriving DecidableEq

/-- The per-sentence score of `find_relevant_passages`
(`sermon_search_app.py` lines 67-75): only words longer than 4
characters score; presence gives 10 points plus 5 per occurrence. -/
def sentence_score (query_words : List (List Char)) (sentence_lower : List Char) : Nat :=
  query_words.foldl
    (fun score word =>
      if 4 < word.length then
        if pyIn word sentence_lower then
          score + 10 + pyCount word sentence_lower * 5
        else score
      else score) 0

/-- The body of the sentence-scoring loop of `find_relevant_passages`
(`sermon_search_app.py` lines 62-82) for one sentence: very short
sentences and sentences scoring zero are skipped. -/
def sentence_entry (transcript : List Char) (query_words : List (List Char))
    (sentence : List Char) : Option ScoredSentence :=
  if sentence.length < 50 then none
  else
    let sentence_lower := lower sentence
    let score := sentence_score query_words sentence_lower
    if 0 < score then
      some { text := pyStrip sentence, score := score,
             position := pyFind sentence transcript }
    else none

/-- The context-window construction of `find_relevant_passages`
(`sermon_search_app.py` lines 89-105) for one scored sentence. -/
def passage_window (transcript : List Char) (item : ScoredSentence) : List Char :=
  let pos := item.position
  let start := (max 0 (pos - 200)).toNat
  let e := min transcript.length (pos + (item.text.length : Int) + 200).toNat
  let passage := pyStrip (pySlice transcript start e)
  let passage := if 0 < start then dots ++ passage else passage
  if e < transcript.length then passage ++ dots else passage

/-- `find_relevant_passages` (`sermon_search_app.py` lines 55-107):
score the sentences, sort by score descending (Python's `list.sort` is
stable), and expand the top `max_passages` into context windows. -/
def find_relevant_passages (transcript : List Char) (query_words : List (List Char))
    (max_passages : Nat := 2) : List (List Char) :=
  let sentences := splitSentences transcript
  let scored_sentences := sentences.filterMap (sentence_entry transcript query_words)
  let sorted := scored_sentences.mergeSort (fun a b => decide (b.score ≤ a.score))
  (sorted.take max_passages).map (passage_window transcript)

/-- One entry of the list returned by `search_sermons_v2`
(`sermon_search_app.py` lines 157-165). -/
structure ResultV2 where
  title : List Char
  date : List Char
  url : List Char
  word_count : Nat
  passages : List (List Char)
  score : Nat
  relevance : List Char
deriving DecidableEq

/-- `calculate_relevance_description` (`sermon_search_app.py`
lines 172-187); the lowered passage computed by the source is unused
there and omitted here. -/
def calculate_relevance_description (query passage : List Char) : List Char :=
  let query_lower := lower query
  if pyIn ("teach".toList) query_lower || pyIn ("what does".toList) query_lower then
    ("Pastor Bob teaches about this topic".toList)
  else if pyIn ("how".toList) query_lower then
    ("Pastor Bob explains how this applies".toList)
  else if pyIn ("why".toList) query_lower then
    ("Pastor Bob discusses the reasons".toList)
  else if pyIn ("bible say".toList) query_lower || pyIn ("scripture".toList) query_lower then
    ("Pastor Bob references biblical teaching".toList)
  else ("Pastor Bob discusses this topic".toList)

/-- The relevance score computed by `search_sermons_v2`
(`sermon_search_app.py` lines 127-148) for one sermon. -/
def score_v2 (query_words : List (List Char)) (sermon : Sermon) : Nat :=
  let title_lower := lower sermon.title
  let transcript_lower := lower sermon.transcript
  -- Title matches are very important
  let score := query_words.foldl
    (fun score word => if pyIn word title_lower then score + 30 else score) 0
  -- Full phrase in transcript (first two meaningful words together)
  let score :=
    if 1 < query_words.length then
      let phrase := List.intercalate [ ' ' ] (query_words.take 2)
      if pyIn phrase transcript_lower then score + 20 else score
    else score
  -- Individual word frequency, capped at 20 points per word
  query_words.foldl
    (fun score word =>
      let count := pyCount word transcript_lower
      if 0 < count then score + min (count * 2) 20 else score) score

/-- The query analysis of `search_sermons_v2` (`sermon_search_app.py`
lines 113-119): words of 5 or more characters; if there is none, fall
back to all words longer than 3 characters. -/
def query_words_v2 (query_lower : List Char) : List (List Char) :=
  let query_words := (pySplit query_lower).filter (fun w => 5 ≤ w.length)
  if query_words.isEmpty then (pySplit query_lower).filter (fun w => 3 < w.length)
  else query_words

/-- The body of the scoring loop of `search_sermons_v2`
(`sermon_search_app.py` lines 123-165) for one sermon: the built result
entry, or `none` when the score is zero or no passage was extracted
(both cases are skipped by the loop). -/
def v2_result (query_lower : List Char) (query_words : List (List Char))
    (sermon : Sermon) : Option ResultV2 :=
  let score := score_v2 query_words sermon
  if score = 0 then none
  else
    let passages := find_relevant_passages sermon.transcript query_words 2
    if passages.isEmpty then none
    else some
      { title := sermon.title, date := sermon.date, url := sermon.url,
        word_count := sermon.word_count, passages := passages, score := score,
        relevance := calculate_relevance_description query_lower
          (passages.headD []) }

/-- `search_sermons_v2` (`sermon_search_app.py` lines 109-170): score
every sermon, skip zero scores, extract passages, skip sermons without
passages, sort by score descending (Python's `list.sort` is stable),
truncate to `max_results`. -/
def search_sermons_v2 (sermons : List Sermon) (query : List Char)
    (max_results : Nat := 10) : List ResultV2 :=
  let query_lower := lower query
  let query_words := query_words_v2 query_lower
  let results := sermons.filterMap (v2_result query_lower query_words)
  (results.mergeSort (fun a b => decide (b.score ≤ a.score))).take max_results

/-- One key quote of the summary built by `generate_summary_answer`
(`sermon_search_app.py` lines 209-212). -/
structure KeyQuote where
  text : List Char
  title : List Char
deriving DecidableEq

/-- The summary payload of `generate_summary_answer`
(`sermon_search_app.py` lines 214-217). -/
structure Summary where
  sermon_count : Nat
  top_teachings : List KeyQuote
deriving DecidableEq

/-- Python `passage.split('. ')` as used by `generate_summary_answer`
(`sermon_search_app.py` line 205): split on every occurrence of the
two-character separator, scanning left to right. -/
def pySplitDotSpace : List Char → List Char → List (List Char)
  | acc, [] => [acc.reverse]
  | acc, '.' :: ' ' :: rest => acc.reverse :: pySplitDotSpace [] rest
  | acc, c :: rest => pySplitDotSpace (c :: acc) rest

/-- `generate_summary_answer` (`sermon_search_app.py` lines 189-217);
its `query` parameter is unused in the source body. -/
def generate_summary_answer (query : List Char) (results : List ResultV2) :
    Option Summary :=
  if results.isEmpty then none
  else
    let top_results := results.take 5
    let key_quotes := top_results.filterMap (fun result =>
      if result.passages.isEmpty then none
      else
        let passage := result.passages.headD []
        let sentences := pySplitDotSpace [] passage
        let excerpt := List.intercalate (". ".toList) (sentences.take 2) ++ [ '.' ]
        let excerpt :=
          if 200 < excerpt.length then excerpt.take 200 ++ dots else excerpt
        some { text := excerpt, title := result.title })
    some { sermon_count := results.length, top_teachings := key_quotes }

/-- The JSON payload of a successful `/api/search/v2` response
(`sermon_search_app.py` lines 605-611). -/
structure SearchResponseV2 where
  query : List Char
  total_sermons : Nat
  results_count : Nat
  summary : Option Summary
  results : List ResultV2
deriving DecidableEq

/-- `api_search_v2` (`sermon_search_app.py` lines 591-611): an
empty/missing query is answered with an HTTP 400 error payload before
any scoring; otherwise the search and the summary run. -/
def api_search_v2 (sermons : List Sermon) (query : List Char)
    (max_results : Nat := 10) : Except (List Char × Nat) SearchResponseV2 :=
  if query.isEmpty then .error (("No query provided".toList), 400)
  else
    let results := search_sermons_v2 sermons query max_results
    let summary := generate_summary_answer query results
    .ok { query := query, total_sermons := sermons.length,
          results_count := results.length, summary := summary,
          results := results }

/-- Modelled from the spec: a time-coded Segment of a Document
(spec section 3); no file under `src/` contains segment handling. -/
structure Segment where
  time : List Char
  seconds : Nat
  text : List Char
deriving DecidableEq

/-- Modelled from the spec: the per-segment score of the Segment
Selector (spec section 4.4), the sum over terms of occurrences in the
segment text times a per-occurrence weight. -/
def segment_score (terms : List (List Char)) (weight : Nat) (seg : Segment) : Nat :=
  (terms.map (fun term => pyCount term (lower seg.text) * weight)).sum

/-- Modelled from the spec: the acceptance test of the greedy selection
loop of section 4.4, true when the candidate's `seconds` differs from
every already-selected segment's `seconds` by more than the minimum
gap. -/
def farEnough (minGap : Nat) (chosen : List Segment) (cand : Segment) : Bool :=
  chosen.all (fun s => minGap < Nat.dist s.seconds cand.seconds)

/-- Modelled from the spec: the greedy selection loop of section 4.4,
walking the score-ordered candidates, accepting a candidate only when it
is far enough from everything already selected, and stopping once the
maximum segment count is reached. -/
def greedy_select (minGap maxSegments : Nat) :
    List Segment → List Segment → List Segment
  | chosen, [] => chosen
  | chosen, cand :: rest =>
    if maxSegments ≤ chosen.length then chosen
    else if farEnough minGap chosen cand then
      greedy_select minGap maxSegments (chosen ++ [cand]) rest
    else greedy_select minGap maxSegments chosen rest

/-- Modelled from the spec: the Segment Selector of spec section 4.4,
which is code of this repository that is not under `src/` (it belongs to
the variants absent from `src/`): segments scoring 0 are discarded,
candidates are sorted by score descending (stably), greedily selected
subject to the minimum-gap rule, and the selection is re-sorted
ascending by `seconds`.  The context-window text expansion of
section 4.4 does not affect `seconds` and is not modelled. -/
def select_segments (segments : List Segment) (terms : List (List Char))
    (weight : Nat := 1) (minGap : Nat := 60) (maxSegments : Nat := 3) :
    List Segment :=
  let candidates := segments.filter (fun seg => 0 < segment_score terms weight seg)
  let sorted := candidates.mergeSort
    (fun a b => decide (segment_score terms weight b ≤ segment_score terms weight a))
  let chosen := greedy_select minGap maxSegments [] sorted
  chosen.mergeSort (fun a b => decide (a.seconds ≤ b.seconds))

example : pySplit (" hello  world ".toList) = [("hello".toList), ("world".toList)] := by decide
example : splitSentences ("Pray often. Amen! Go".toList) =
    [("Pray often".toList), ("Amen".toList), ("Go".toList)] := by decide
example : splitSentences ("a.b c. ".toList) = [("a.b c".toList), []] := by decide
example : splitSentences ("x. . y".toList) = [("x".toList), [], ("y".toList)] := by decide
example : pySplitDotSpace [] ("a. b. c".toList) =
    [("a".toList), ("b".toList), ("c".toList)] := by decide

/-! ### Library of facts about the string primitives -/

theorem pyIn_iff {sub s : List Char} : pyIn sub s = true ↔ sub <:+: s := by
  induction s with
  | nil =>
    simp [pyIn, List.isEmpty_iff]
  | cons c rest ih =>
    simp [pyIn, ih, List.infix_cons_iff]

theorem pyIn_append {sub s : List Char} (t : List Char) (h : pyIn sub s = true) :
    pyIn sub (s ++ t) = true := by
  rw [pyIn_iff] at h ⊢
  exact h.trans (List.prefix_append s t).isInfix

theorem pyFind_ge_neg_one (sub : List Char) : ∀ s, -1 ≤ pyFind sub s
  | [] => by unfold pyFind; split <;> omega
  | c :: rest => by
    have h := pyFind_ge_neg_one sub rest
    unfold pyFind
    split
    · omega
    · simp only []
      split <;> omega

theorem pyFind_eq_neg_one_iff {sub : List Char} :
    ∀ {s : List Char}, pyFind sub s = -1 ↔ pyIn sub s = false
  | [] => by
    unfold pyFind pyIn
    split <;> rename_i h <;> simp [h]
  | c :: rest => by
    have ih := @pyFind_eq_neg_one_iff sub rest
    have hge := pyFind_ge_neg_one sub rest
    unfold pyFind pyIn
    split <;> rename_i h <;> simp only [h]
    · simp
    · simp only [Bool.false_or]
      split <;> rename_i h2
      · simp [ih.mp h2]
      · constructor
        · intro hc; omega
        · intro hc; rw [← ih] at hc; omega

theorem bestPosition_eq_neg_one_iff {tl : List Char} :
    ∀ {qws : List (List Char)}, bestPosition tl qws = -1 ↔
      ∀ w ∈ qws, 3 < w.length → pyIn w tl = false
  | [] => by simp [bestPosition]
  | w :: ws => by
    have ih := @bestPosition_eq_neg_one_iff tl ws
    unfold bestPosition
    split <;> rename_i hlen
    · simp only []
      split <;> rename_i hfind
      · simp only [ne_eq, ← pyFind_eq_neg_one_iff] at hfind
        constructor
        · intro h; exact absurd h hfind
        · intro h
          exact absurd (pyFind_eq_neg_one_iff.mpr (h w (by simp) hlen)) hfind
      · simp only [ne_eq, Decidable.not_not, pyFind_eq_neg_one_iff] at hfind
        rw [ih]
        constructor
        · intro h x hx hlx
          rcases List.mem_cons.mp hx with rfl | hx2
          · exact hfind
          · exact h x hx2 hlx
        · intro h x hx hlx; exact h x (List.mem_cons_of_mem w hx) hlx
    · rw [ih]
      constructor
      · intro h x hx hlx
        rcases List.mem_cons.mp hx with rfl | hx2
        · exact absurd hlx hlen
        · exact h x hx2 hlx
      · intro h x hx hlx; exact h x (List.mem_cons_of_mem w hx) hlx

theorem isPrefixOf_append_of_length_le :
    ∀ {sub l : List Char} (t : List Char), sub.length ≤ l.length →
      sub.isPrefixOf (l ++ t) = sub.isPrefixOf l
  | [], l, t, _ => by simp [List.isPrefixOf]
  | c :: cs, [], t, h => by simp at h
  | c :: cs, d :: ds, t, h => by
    show (c == d && cs.isPrefixOf (ds ++ t)) = (c == d && cs.isPrefixOf ds)
    rw [isPrefixOf_append_of_length_le t (by simpa using h)]

theorem isPrefixOf_append_extend {sub l : List Char} (t : List Char)
    (h : sub.isPrefixOf l = true) : sub.isPrefixOf (l ++ t) = true := by
  rw [List.isPrefixOf_iff_prefix] at h ⊢
  exact h.trans (List.prefix_append l t)

theorem pyCountAux_step (sub : List Char) (c : Char) (l : List Char) :
    pyCountAux sub (c :: l) 0 =
      if sub.isPrefixOf (c :: l) then 1 + pyCountAux sub l (sub.length - 1)
      else pyCountAux sub l 0 := rfl

theorem pyCountAux_eq_zero {sub : List Char} :
    ∀ (s : List Char) (k : Nat), s.length < sub.length → pyCountAux sub s k = 0
  | [], _, _ => rfl
  | c :: rest, 0, h => by
    rw [pyCountAux_step]
    have hp : sub.isPrefixOf (c :: rest) = false := by
      cases hb : sub.isPrefixOf (c :: rest)
      · rfl
      · exfalso
        have := (List.isPrefixOf_iff_prefix.mp hb).length_le
        simp only [List.length_cons] at this h
        omega
    rw [hp]
    simp only [Bool.false_eq_true, if_false]
    exact pyCountAux_eq_zero rest 0
      (by simp only [List.length_cons] at h; omega)
  | c :: rest, k + 1, h =>
    pyCountAux_eq_zero rest k (by simp only [List.length_cons] at h; omega)

theorem pyCountAux_le_append {sub : List Char} (t : List Char) :
    ∀ (s : List Char) (k : Nat), pyCountAux sub s k ≤ pyCountAux sub (s ++ t) k
  | [], k => by
    simp only [List.nil_append]
    exact Nat.zero_le _
  | c :: rest, k + 1 => pyCountAux_le_append t rest k
  | c :: rest, 0 => by
    rw [List.cons_append, pyCountAux_step, pyCountAux_step]
    by_cases hp : sub.isPrefixOf (c :: rest) = true
    · have hp2 : sub.isPrefixOf (c :: (rest ++ t)) = true := by
        have := isPrefixOf_append_extend t hp
        rwa [List.cons_append] at this
      rw [if_pos hp, if_pos hp2]
      have h3 := @pyCountAux_le_append sub t rest (sub.length - 1)
      omega
    · rw [if_neg hp]
      by_cases hp2 : sub.isPrefixOf (c :: (rest ++ t)) = true
      · rw [if_pos hp2]
        have hlong : (c :: rest).length < sub.length := by
          by_contra hle
          rw [← List.cons_append, isPrefixOf_append_of_length_le t (by omega)] at hp2
          exact hp hp2
        have h0 : pyCountAux sub rest 0 = 0 :=
          pyCountAux_eq_zero rest 0
            (by simp only [List.length_cons] at hlong; omega)
        omega
      · rw [if_neg hp2]
        exact pyCountAux_le_append t rest 0

theorem pyCount_le_append (sub s t : List Char) :
    pyCount sub s ≤ pyCount sub (s ++ t) := by
  unfold pyCount
  split
  · simp only [List.length_append]
    omega
  · exact pyCountAux_le_append t s 0

theorem pyCountAux_pos {sub : List Char} (hne : sub ≠ []) :
    ∀ {s : List Char}, sub <:+: s → 0 < pyCountAux sub s 0
  | [], h => by
    rw [List.infix_nil] at h; exact absurd h hne
  | c :: rest, h => by
    rw [List.infix_cons_iff] at h
    rw [pyCountAux_step]
    by_cases hp : sub.isPrefixOf (c :: rest) = true
    · rw [if_pos hp]; omega
    · rw [if_neg hp]
      rcases h with hpre | hinf
      · exact absurd (List.isPrefixOf_iff_prefix.mpr hpre) hp
      · exact pyCountAux_pos hne hinf

theorem pyCount_pos_of_infix {sub s : List Char} (hne : sub ≠ [])
    (h : sub <:+: s) : 0 < pyCount sub s := by
  unfold pyCount
  split
  · omega
  · exact pyCountAux_pos hne h

theorem pyCount_nil {sub : List Char} (hne : sub ≠ []) : pyCount sub [] = 0 := by
  unfold pyCount
  split
  · rename_i h; rw [List.isEmpty_iff] at h; exact absurd h hne
  · rfl

/-! ### Fold decomposition -/

theorem foldl_add_sum {M : Type} [AddMonoid M] {α : Type} (g : α → M) :
    ∀ (l : List α) (a : M), l.foldl (fun sc w => sc + g w) a = a + (l.map g).sum
  | [], a => by simp
  | w :: ws, a => by
    simp only [List.foldl_cons, List.map_cons, List.sum_cons]
    rw [foldl_add_sum g ws (a + g w), add_assoc]

/-! ### Evaluation helpers for the stable sort on tiny concrete lists -/

theorem mergeSort_eval_nil {α : Type} (le : α → α → Bool) {l : List α}
    (h : l = []) : l.mergeSort le = [] := by
  subst h; simp [List.mergeSort]

theorem mergeSort_eval_one {α : Type} (le : α → α → Bool) {l : List α} {a : α}
    (h : l = [a]) : l.mergeSort le = [a] := by
  subst h; simp [List.mergeSort]

/-! ### The three score components of each variant, and decompositions -/

/-- The title component of `score_v1` (`sermon.py` lines 91-94), as a sum. -/
def title_component_v1 (query_words : List (List Char)) (title_lower : List Char) : ℚ :=
  (query_words.map (fun word => if pyIn word title_lower then (10 : ℚ) else 0)).sum

/-- The phrase component of `score_v1` (`sermon.py` lines 97-99). -/
def phrase_component_v1 (query_lower transcript_lower : List Char) : ℚ :=
  if pyIn query_lower transcript_lower then 5 else 0

/-- The word-frequency component of `score_v1` (`sermon.py`
lines 102-105), as a sum. -/
def freq_component_v1 (query_words : List (List Char)) (transcript_lower : List Char) : ℚ :=
  (query_words.map (fun word =>
    if 3 < word.length then (pyCount word transcript_lower : ℚ) * 0.5 else 0)).sum

theorem score_v1_decomp (ql : List Char) (qws : List (List Char)) (s : Sermon) :
    score_v1 ql qws s =
      title_component_v1 qws (lower s.title) +
        phrase_component_v1 ql (lower s.transcript) +
        freq_component_v1 qws (lower s.transcript) := by
  unfold score_v1 title_component_v1 phrase_component_v1 freq_component_v1
  simp only []
  have h1 : (fun (score : ℚ) (word : List Char) =>
      if pyIn word (lower s.title) then score + 10 else score) =
      (fun score word => score + (if pyIn word (lower s.title) then (10 : ℚ) else 0)) := by
    funext sc w; split <;> simp
  have h3 : (fun (score : ℚ) (word : List Char) =>
      if 3 < word.length then score + (pyCount word (lower s.transcript) : ℚ) * 0.5
      else score) =
      (fun score word => score +
        (if 3 < word.length then (pyCount word (lower s.transcript) : ℚ) * 0.5 else 0)) := by
    funext sc w; split <;> simp
  rw [h1, foldl_add_sum, h3, foldl_add_sum]
  split <;> ring

/-- The title component of `score_v2` (`sermon_search_app.py`
lines 131-134), as a sum. -/
def title_component_v2 (query_words : List (List Char)) (title_lower : List Char) : Nat :=
  (query_words.map (fun word => if pyIn word title_lower then 30 else 0)).sum

/-- The phrase component of `score_v2` (`sermon_search_app.py`
lines 137-142). -/
def phrase_component_v2 (query_words : List (List Char)) (transcript_lower : List Char) : Nat :=
  if 1 < query_words.length then
    if pyIn (List.intercalate [ ' ' ] (query_words.take 2)) transcript_lower then 20
    else 0
  else 0

/-- The word-frequency component of `score_v2` (`sermon_search_app.py`
lines 145-148), as a sum. -/
def freq_component_v2 (query_words : List (List Char)) (transcript_lower : List Char) : Nat :=
  (query_words.map (fun word =>
    if 0 < pyCount word transcript_lower then
      min (pyCount word transcript_lower * 2) 20
    else 0)).sum

theorem score_v2_decomp (qws : List (List Char)) (s : Sermon) :
    score_v2 qws s =
      title_component_v2 qws (lower s.title) +
        phrase_component_v2 qws (lower s.transcript) +
        freq_component_v2 qws (lower s.transcript) := by
  unfold score_v2 title_component_v2 phrase_component_v2 freq_component_v2
  simp only []
  have h1 : (fun (score : Nat) (word : List Char) =>
      if pyIn word (lower s.title) then score + 30 else score) =
      (fun score word => score + (if pyIn word (lower s.title) then 30 else 0)) := by
    funext sc w; split <;> simp
  have h3 : (fun (score : Nat) (word : List Char) =>
      let count := pyCount word (lower s.transcript)
      if 0 < count then score + min (count * 2) 20 else score) =
      (fun score word => score +
        (if 0 < pyCount word (lower s.transcript) then
          min (pyCount word (lower s.transcript) * 2) 20
         else 0)) := by
    funext sc w; simp only []; split <;> simp
  rw [h1, foldl_add_sum, h3, foldl_add_sum]
  split <;> rename_i hlen
  · split <;> omega
  · omega

/-! ### Lowercasing facts -/

theorem toNat_ofNat_valid {n : Nat} (h : n < 55296) :
    (Char.ofNat n).toNat = n := by
  rw [Char.ofNat, dif_pos (Or.inl h)]
  simp [Char.ofNatAux, Char.toNat, UInt32.toNat]

theorem toNat_lt_of_isPySpace {c : Char} (h : isPySpace c = true) :
    c.toNat < 33 := by
  unfold isPySpace at h
  simp only [Bool.or_eq_true, decide_eq_true_eq] at h
  rcases h with ((((h | h) | h) | h) | h) | h <;> subst h <;> decide

theorem isPySpace_toLower (c : Char) : isPySpace c.toLower = isPySpace c := by
  unfold Char.toLower
  simp only []
  split
  · rename_i h
    have h1 : (Char.ofNat (c.toNat + 32)).toNat = c.toNat + 32 :=
      toNat_ofNat_valid (by omega)
    have h2 : isPySpace (Char.ofNat (c.toNat + 32)) = false := by
      cases hb : isPySpace (Char.ofNat (c.toNat + 32))
      · rfl
      · have := toNat_lt_of_isPySpace hb; omega
    have h3 : isPySpace c = false := by
      cases hb : isPySpace c
      · rfl
      · have := toNat_lt_of_isPySpace hb; omega
    rw [h2, h3]
  · rfl

theorem pySplitAux_nil (acc : List Char) :
    pySplitAux acc [] = if acc.isEmpty then [] else [acc.reverse] := rfl

theorem pySplitAux_cons (acc : List Char) (c : Char) (rest : List Char) :
    pySplitAux acc (c :: rest) =
      if isPySpace c then
        (if acc.isEmpty then pySplitAux [] rest else acc.reverse :: pySplitAux [] rest)
      else pySplitAux (c :: acc) rest := rfl

theorem pySplitAux_lower :
    ∀ (s acc : List Char), pySplitAux (lower acc) (lower s) = (pySplitAux acc s).map lower
  | [], acc => by
    show pySplitAux (lower acc) [] = (pySplitAux acc []).map lower
    rw [pySplitAux_nil, pySplitAux_nil]
    by_cases h : acc = []
    · subst h; simp [lower]
    · rw [if_neg, if_neg]
      · simp [lower, List.map_reverse]
      · simpa [List.isEmpty_iff] using h
      · simpa [List.isEmpty_iff, lower, List.map_eq_nil_iff] using h
  | c :: rest, acc => by
    show pySplitAux (lower acc) (c.toLower :: lower rest) =
      (pySplitAux acc (c :: rest)).map lower
    rw [pySplitAux_cons, pySplitAux_cons, isPySpace_toLower]
    have hrest : pySplitAux ([] : List Char) (lower rest) = (pySplitAux [] rest).map lower := by
      simpa [lower] using pySplitAux_lower rest []
    by_cases hsp : isPySpace c = true
    · rw [if_pos hsp, if_pos hsp]
      by_cases h : acc = []
      · subst h
        rw [if_pos (by simp [lower]), if_pos (by simp), hrest]
      · rw [if_neg, if_neg]
        · rw [hrest]
          simp [lower, List.map_reverse]
        · simpa [List.isEmpty_iff] using h
        · simpa [List.isEmpty_iff, lower, List.map_eq_nil_iff] using h
    · rw [if_neg hsp, if_neg hsp]
      show pySplitAux (lower (c :: acc)) (lower rest) =
        (pySplitAux (c :: acc) rest).map lower
      exact pySplitAux_lower rest (c :: acc)

theorem pySplit_lower (s : List Char) : pySplit (lower s) = (pySplit s).map lower := by
  unfold pySplit
  simpa [lower] using pySplitAux_lower s []

theorem length_lower (s : List Char) : (lower s).length = s.length := by
  simp [lower]

/-! ### Searches over the empty corpus -/

theorem search_sermons_nil (q : List Char) (n : Nat) : search_sermons [] q n = [] := by
  unfold search_sermons
  simp only [List.filterMap_nil]
  rw [mergeSort_eval_nil _ rfl]
  exact List.take_nil

theorem search_sermons_v2_nil (q : List Char) (n : Nat) : search_sermons_v2 [] q n = [] := by
  unfold search_sermons_v2
  simp only [List.filterMap_nil]
  rw [mergeSort_eval_nil _ rfl]
  exact List.take_nil

/-! ### Claim C2 -/

theorem pyIn_nil {sub : List Char} (h : sub ≠ []) : pyIn sub [] = false := by
  show sub.isEmpty = false
  simpa [List.isEmpty_iff] using h

theorem intercalate_take_two_ne_nil {qws : List (List Char)}
    (h : 1 < qws.length) : List.intercalate [ ' ' ] (qws.take 2) ≠ [] := by
  match qws with
  | [] => simp at h
  | [a] => simp at h
  | a :: b :: rest =>
    show List.intercalate [ ' ' ] [a, b] ≠ []
    simp [List.intercalate, List.intersperse]

/-- C2 (amended): with an empty transcript, the phrase and frequency
components of both scoring functions contribute nothing (for a nonempty
query string and nonempty query words), so the score reduces to the
title component alone — which can still be nonzero when a query word
occurs in the title. -/
theorem claim_C2_empty_transcript_score (ql : List Char) (qws : List (List Char))
    (s : Sermon) (ht : s.transcript = []) (hql : ql ≠ [])
    (hqws : ∀ w ∈ qws, w ≠ []) :
    score_v1 ql qws s = title_component_v1 qws (lower s.title) ∧
    score_v2 qws s = title_component_v2 qws (lower s.title) := by
  have hlow : lower s.transcript = [] := by rw [ht]; rfl
  constructor
  · rw [score_v1_decomp, hlow]
    have hph : phrase_component_v1 ql [] = 0 := by
      unfold phrase_component_v1
      rw [if_neg (by simp [pyIn_nil hql])]
    have hfr : freq_component_v1 qws [] = 0 := by
      unfold freq_component_v1
      apply List.sum_eq_zero
      intro x hx
      obtain ⟨w, _, rfl⟩ := List.mem_map.mp hx
      split
      · rename_i hlen
        rw [pyCount_nil (by intro hwe; subst hwe; simp at hlen)]
        norm_num
      · rfl
    rw [hph, hfr]
    ring
  · rw [score_v2_decomp, hlow]
    have hph : phrase_component_v2 qws [] = 0 := by
      unfold phrase_component_v2
      split
      · rename_i hlen
        rw [if_neg (by simp [pyIn_nil (intercalate_take_two_ne_nil hlen)])]
      · rfl
    have hfr : freq_component_v2 qws [] = 0 := by
      unfold freq_component_v2
      apply List.sum_eq_zero
      intro x hx
      obtain ⟨w, hw, rfl⟩ := List.mem_map.mp hx
      rw [pyCount_nil (hqws w hw)]
      rfl
    rw [hph, hfr]
    omega

/-- Witness for C2 (amended) at concrete inputs. -/
theorem claim_C2_witness :
    score_v1 ("grace".toList) [("grace".toList)]
        { title := ("Grace".toList), transcript := [] } =
      title_component_v1 [("grace".toList)] (lower ("Grace".toList)) ∧
    score_v2 [("grace".toList)] { title := ("Grace".toList), transcript := [] } =
      title_component_v2 [("grace".toList)] (lower ("Grace".toList)) :=
  claim_C2_empty_transcript_score ("grace".toList) [("grace".toList)]
    { title := ("Grace".toList), transcript := [] } rfl (by decide)
    (by intro w hw; rw [List.mem_singleton] at hw; subst hw; decide)

/-! Evaluation helpers for concrete v1 scores (rational arithmetic does
not reduce in the kernel, so concrete scores are computed through the
component decomposition). -/

theorem title_component_v1_cons (w : List Char) (ws : List (List Char)) (tl : List Char) :
    title_component_v1 (w :: ws) tl =
      (if pyIn w tl then (10 : ℚ) else 0) + title_component_v1 ws tl := by
  unfold title_component_v1
  simp

theorem freq_component_v1_cons (w : List Char) (ws : List (List Char)) (tl : List Char) :
    freq_component_v1 (w :: ws) tl =
      (if 3 < w.length then (pyCount w tl : ℚ) * 0.5 else 0) + freq_component_v1 ws tl := by
  unfold freq_component_v1
  simp

theorem title_component_v1_eval_one {w tl : List Char} (h : pyIn w tl = true) :
    title_component_v1 [w] tl = 10 := by
  rw [title_component_v1_cons, if_pos h]
  show (10 : ℚ) + 0 = 10
  norm_num

theorem title_component_v1_eval_one_neg {w tl : List Char} (h : pyIn w tl = false) :
    title_component_v1 [w] tl = 0 := by
  rw [title_component_v1_cons, if_neg (by simp [h])]
  show (0 : ℚ) + 0 = 0
  norm_num

theorem phrase_component_v1_eval_pos {ql tl : List Char} (h : pyIn ql tl = true) :
    phrase_component_v1 ql tl = 5 := by
  unfold phrase_component_v1
  rw [if_pos h]

theorem phrase_component_v1_eval_neg {ql tl : List Char} (h : pyIn ql tl = false) :
    phrase_component_v1 ql tl = 0 := by
  unfold phrase_component_v1
  rw [if_neg (by simp [h])]

theorem freq_component_v1_eval_one {w tl : List Char} {c : Nat} (hlen : 3 < w.length)
    (hc : pyCount w tl = c) : freq_component_v1 [w] tl = (c : ℚ) * 0.5 := by
  rw [freq_component_v1_cons, if_pos hlen, hc]
  show (c : ℚ) * 0.5 + 0 = (c : ℚ) * 0.5
  norm_num

theorem score_v1_eval (ql : List Char) (qws : List (List Char))
    (title date url : List Char) (wc : Nat) (desc transcript : List Char)
    {T P F : ℚ}
    (hT : title_component_v1 qws (lower title) = T)
    (hP : phrase_component_v1 ql (lower transcript) = P)
    (hF : freq_component_v1 qws (lower transcript) = F) :
    score_v1 ql qws ⟨title, date, url, wc, desc, transcript⟩ = T + P + F := by
  rw [score_v1_decomp]
  show title_component_v1 qws (lower title) + phrase_component_v1 ql (lower transcript) +
      freq_component_v1 qws (lower transcript) = T + P + F
  rw [hT, hP, hF]

theorem find_relevant_passages_eval (t : List Char) (qws : List (List Char)) (mp : Nat)
    {scored sorted : List ScoredSentence}
    (h : (splitSentences t).filterMap (sentence_entry t qws) = scored)
    (h2 : scored.mergeSort (fun a b => decide (b.score ≤ a.score)) = sorted) :
    find_relevant_passages t qws mp = (sorted.take mp).map (passage_window t) := by
  unfold find_relevant_passages
  simp only []
  rw [h, h2]

/-- Concrete evaluation shared below: the score of the titled,
empty-transcript document under the query "grace". -/
theorem score_grace_empty_eval :
    score_v1 ("grace".toList) [("grace".toList)]
      { title := ("Grace".toList), transcript := [] } = 10 := by
  have h := score_v1_eval ("grace".toList) [("grace".toList)]
    ("Grace".toList) [] [] 0 [] []
    (title_component_v1_eval_one (by decide))
    (phrase_component_v1_eval_neg (by decide))
    (freq_component_v1_eval_one (by decide)
      (show pyCount ("grace".toList) (lower ([] : List Char)) = 0 from by decide))
  rw [show ({ title := ("Grace".toList), transcript := [] } : Sermon) =
      ⟨("Grace".toList), [], [], 0, [], []⟩ from rfl]
  rw [h]
  norm_num

/-- Concrete evaluation shared below: the v1 search over the corpus with
one titled, empty-transcript document and the query "grace". -/
theorem search_grace_empty_eval :
    search_sermons [{ title := ("Grace".toList), transcript := [] }]
        ("grace".toList) 10 =
      [{ title := ("Grace".toList), date := [], url := [], word_count := 0,
         excerpt := [], score := 10 }] := by
  have hv : v1_result (lower ("grace".toList)) (pySplit (lower ("grace".toList)))
      { title := ("Grace".toList), transcript := [] } =
      some { title := ("Grace".toList), date := [], url := [], word_count := 0,
             excerpt := [], score := 10 } := by
    unfold v1_result
    simp only []
    rw [show pySplit (lower ("grace".toList)) = [("grace".toList)] from by decide,
        show lower ("grace".toList) = ("grace".toList) from by decide]
    rw [score_grace_empty_eval, if_neg (by norm_num)]
    rfl
  unfold search_sermons
  simp only []
  rw [List.filterMap_cons, hv]
  simp only [List.filterMap_nil]
  rw [mergeSort_eval_one _ rfl]
  rfl

/-- Counterexample to C2 as stated: a document with an empty transcript
whose title contains the query word scores 10 in `score_v1` (30 in
`score_v2`), not zero, and `search_sermons` returns it. -/
theorem claim_C2_counterexample :
    score_v1 ("grace".toList) [("grace".toList)]
        { title := ("Grace".toList), transcript := [] } = 10 ∧
    score_v2 [("grace".toList)] { title := ("Grace".toList), transcript := [] } = 30 ∧
    search_sermons [{ title := ("Grace".toList), transcript := [] }]
        ("grace".toList) 10 =
      [{ title := ("Grace".toList), date := [], url := [], word_count := 0,
         excerpt := [], score := 10 }] :=
  ⟨score_grace_empty_eval, by decide, search_grace_empty_eval⟩

/-! ### Claim C8 -/

theorem title_component_v1_eval_two {w1 w2 tl : List Char}
    (h1 : pyIn w1 tl = true) (h2 : pyIn w2 tl = true) :
    title_component_v1 [w1, w2] tl = 20 := by
  rw [title_component_v1_cons, title_component_v1_cons, if_pos h1, if_pos h2]
  show (10 : ℚ) + ((10 : ℚ) + title_component_v1 [] tl) = 20
  show (10 : ℚ) + ((10 : ℚ) + 0) = 20
  norm_num

theorem freq_component_v1_eval_two_zero {w1 w2 tl : List Char}
    (g1 : 3 < w1.length) (g2 : 3 < w2.length)
    (hc1 : pyCount w1 tl = 0) (hc2 : pyCount w2 tl = 0) :
    freq_component_v1 [w1, w2] tl = 0 := by
  rw [freq_component_v1_cons, freq_component_v1_cons, if_pos g1, if_pos g2, hc1, hc2]
  show ((0 : Nat) : ℚ) * 0.5 + (((0 : Nat) : ℚ) * 0.5 + freq_component_v1 [] tl) = 0
  show ((0 : Nat) : ℚ) * 0.5 + (((0 : Nat) : ℚ) * 0.5 + 0) = 0
  norm_num

/-- C8 (amended): the query words are the split of the lowered query
with duplicates retained, and the title and frequency components are
additive over concatenation of query-word lists, so a repeated query
word contributes its title bonus and frequency contribution once per
repetition instead of being deduplicated (shown as the v1 full-score
equation for a duplicated word list, additivity of the v1 components,
and doubling of the v2 components). -/
theorem claim_C8_duplicates_add (ql : List Char) (qws ws1 ws2 : List (List Char))
    (s : Sermon) :
    score_v1 ql (qws ++ qws) s =
      score_v1 ql qws s + title_component_v1 qws (lower s.title) +
        freq_component_v1 qws (lower s.transcript) ∧
    title_component_v1 (ws1 ++ ws2) (lower s.title) =
      title_component_v1 ws1 (lower s.title) +
        title_component_v1 ws2 (lower s.title) ∧
    freq_component_v1 (ws1 ++ ws2) (lower s.transcript) =
      freq_component_v1 ws1 (lower s.transcript) +
        freq_component_v1 ws2 (lower s.transcript) ∧
    title_component_v2 (qws ++ qws) (lower s.title) =
      2 * title_component_v2 qws (lower s.title) ∧
    freq_component_v2 (qws ++ qws) (lower s.transcript) =
      2 * freq_component_v2 qws (lower s.transcript) := by
  have htadd : ∀ (a b : List (List Char)) (tl : List Char),
      title_component_v1 (a ++ b) tl =
        title_component_v1 a tl + title_component_v1 b tl := by
    intro a b tl
    unfold title_component_v1
    rw [List.map_append, List.sum_append]
  have hfadd : ∀ (a b : List (List Char)) (tl : List Char),
      freq_component_v1 (a ++ b) tl =
        freq_component_v1 a tl + freq_component_v1 b tl := by
    intro a b tl
    unfold freq_component_v1
    rw [List.map_append, List.sum_append]
  refine ⟨?_, htadd ws1 ws2 _, hfadd ws1 ws2 _, ?_, ?_⟩
  · rw [score_v1_decomp, score_v1_decomp, htadd, hfadd]
    ring
  · unfold title_component_v2
    rw [List.map_append, List.sum_append]
    omega
  · unfold freq_component_v2
    rw [List.map_append, List.sum_append]
    omega

/-- Counterexample to C8 as stated: repeating the query word changes the
computed score in both variants (on this document, 10 becomes 20 in
`score_v1` and 30 becomes 60 in `score_v2`), so query terms are not a
deduplicated set. -/
theorem claim_C8_counterexample :
    score_v1 ("grace".toList) (pySplit (lower ("grace".toList)))
        { title := ("Grace".toList), transcript := ("pray".toList) } = 10 ∧
    score_v1 ("grace grace".toList) (pySplit (lower ("grace grace".toList)))
        { title := ("Grace".toList), transcript := ("pray".toList) } = 20 ∧
    score_v2 (query_words_v2 (lower ("grace".toList)))
        { title := ("Grace".toList), transcript := ("pray".toList) } = 30 ∧
    score_v2 (query_words_v2 (lower ("grace grace".toList)))
        { title := ("Grace".toList), transcript := ("pray".toList) } = 60 := by
  have hrec : ({ title := ("Grace".toList), transcript := ("pray".toList) } : Sermon) =
      ⟨("Grace".toList), [], [], 0, [], ("pray".toList)⟩ := rfl
  refine ⟨?_, ?_, by decide, by decide⟩
  · rw [show pySplit (lower ("grace".toList)) = [("grace".toList)] from by decide, hrec]
    rw [score_v1_eval _ _ _ _ _ _ _ _
      (title_component_v1_eval_one (by decide))
      (phrase_component_v1_eval_neg (by decide))
      (freq_component_v1_eval_one (by decide)
        (show pyCount ("grace".toList) (lower ("pray".toList)) = 0 from by decide))]
    norm_num
  · rw [show pySplit (lower ("grace grace".toList)) =
        [("grace".toList), ("grace".toList)] from by decide, hrec]
    rw [score_v1_eval _ _ _ _ _ _ _ _
      (title_component_v1_eval_two (by decide) (by decide))
      (phrase_component_v1_eval_neg (by decide))
      (freq_component_v1_eval_two_zero (by decide) (by decide)
        (show pyCount ("grace".toList) (lower ("pray".toList)) = 0 from by decide)
        (show pyCount ("grace".toList) (lower ("pray".toList)) = 0 from by decide))]
    norm_num

/-! ### Claim C1 -/

theorem v1_result_eq_none_iff (ql : List Char) (qws : List (List Char)) (s : Sermon) :
    v1_result ql qws s = none ↔ score_v1 ql qws s = 0 := by
  unfold v1_result
  simp only []
  split
  · rename_i h
    simp [h]
  · rename_i h
    simp [h]

theorem v2_result_eq_none_iff (ql : List Char) (qws : List (List Char)) (s : Sermon) :
    v2_result ql qws s = none ↔
      score_v2 qws s = 0 ∨ find_relevant_passages s.transcript qws 2 = [] := by
  unfold v2_result
  simp only []
  split
  · rename_i h
    simp [h]
  · rename_i h
    split
    · rename_i h2
      rw [List.isEmpty_iff] at h2
      simp [h, h2]
    · rename_i h2
      rw [List.isEmpty_iff] at h2
      simp [h, h2]

/-- The behaviour of Python's stable descending sort by a key, stated
for `List.mergeSort` with the comparison used by both search variants:
the output is a permutation of the input, is sorted by non-increasing
key, and any key-tie group keeps its input order (every sublist with
equal keys is still a sublist of the output). -/
theorem stable_sort_spec {α β : Type} [LinearOrder β] (key : α → β) (l : List α) :
    (l.mergeSort (fun a b => decide (key b ≤ key a))).Perm l ∧
    (l.mergeSort (fun a b => decide (key b ≤ key a))).Pairwise
      (fun a b => key b ≤ key a) ∧
    (∀ c : List α, c.Pairwise (fun a b => key a = key b) →
      c.Sublist l → c.Sublist (l.mergeSort (fun a b => decide (key b ≤ key a)))) := by
  have htrans : ∀ (a b c : α), (fun a b => decide (key b ≤ key a)) a b = true →
      (fun a b => decide (key b ≤ key a)) b c = true →
      (fun a b => decide (key b ≤ key a)) a c = true := by
    intro a b c h1 h2
    simp only [decide_eq_true_eq] at h1 h2 ⊢
    exact le_trans h2 h1
  have htotal : ∀ (a b : α), ((fun a b => decide (key b ≤ key a)) a b ||
      (fun a b => decide (key b ≤ key a)) b a) = true := by
    intro a b
    simpa using le_total (key b) (key a)
  refine ⟨List.mergeSort_perm l _, ?_, ?_⟩
  · exact (List.sorted_mergeSort htrans htotal l).imp (fun h => by simpa using h)
  · intro c hpw hsub
    refine List.sublist_mergeSort htrans htotal ?_ hsub
    exact hpw.imp (fun h => by simp [h])

/-- C1 (amended): each search returns the score-descending, stable sort
of its kept entries, truncated to `max_results`.  The kept entries of
`search_sermons` are exactly the sermons with nonzero v1 score; the
kept entries of `search_sermons_v2` are exactly the sermons with
nonzero v2 score AND at least one extracted passage (a nonzero-scoring
sermon without passages is dropped, which corrects the claim).
Stability is stated as: every tie group (a sublist of the kept-entry
list with equal scores, hence in corpus order) is still a sublist of
the sorted list. -/
theorem claim_C1_ranking (sermons : List Sermon) (q : List Char) (n : Nat) :
    (∃ full : List ResultV1,
      search_sermons sermons q n = full.take n ∧
      full.Perm (sermons.filterMap (v1_result (lower q) (pySplit (lower q)))) ∧
      full.Pairwise (fun a b => b.score ≤ a.score) ∧
      (∀ c : List ResultV1,
        c.Pairwise (fun a b => a.score = b.score) →
        c.Sublist (sermons.filterMap (v1_result (lower q) (pySplit (lower q)))) →
        c.Sublist full)) ∧
    (∀ s : Sermon, v1_result (lower q) (pySplit (lower q)) s = none ↔
      score_v1 (lower q) (pySplit (lower q)) s = 0) ∧
    (∃ full : List ResultV2,
      search_sermons_v2 sermons q n = full.take n ∧
      full.Perm (sermons.filterMap (v2_result (lower q) (query_words_v2 (lower q)))) ∧
      full.Pairwise (fun a b => b.score ≤ a.score) ∧
      (∀ c : List ResultV2,
        c.Pairwise (fun a b => a.score = b.score) →
        c.Sublist (sermons.filterMap (v2_result (lower q) (query_words_v2 (lower q)))) →
        c.Sublist full)) ∧
    (∀ s : Sermon, v2_result (lower q) (query_words_v2 (lower q)) s = none ↔
      score_v2 (query_words_v2 (lower q)) s = 0 ∨
        find_relevant_passages s.transcript (query_words_v2 (lower q)) 2 = []) := by
  obtain ⟨hperm1, hsort1, hstab1⟩ :=
    stable_sort_spec ResultV1.score
      (sermons.filterMap (v1_result (lower q) (pySplit (lower q))))
  obtain ⟨hperm2, hsort2, hstab2⟩ :=
    stable_sort_spec ResultV2.score
      (sermons.filterMap (v2_result (lower q) (query_words_v2 (lower q))))
  exact ⟨⟨_, rfl, hperm1, hsort1, hstab1⟩,
    fun s => v1_result_eq_none_iff _ _ s,
    ⟨_, rfl, hperm2, hsort2, hstab2⟩,
    fun s => v2_result_eq_none_iff _ _ s⟩

/-- Witness for C1 at a concrete corpus and query. -/
theorem claim_C1_witness :
    (∃ full : List ResultV1,
      search_sermons [{ title := ("Grace".toList), transcript := [] }]
          ("grace".toList) 10 = full.take 10 ∧
      full.Perm ([{ title := ("Grace".toList), transcript := [] }].filterMap
        (v1_result (lower ("grace".toList)) (pySplit (lower ("grace".toList))))) ∧
      full.Pairwise (fun a b => b.score ≤ a.score) ∧
      (∀ c : List ResultV1,
        c.Pairwise (fun a b => a.score = b.score) →
        c.Sublist ([{ title := ("Grace".toList), transcript := [] }].filterMap
          (v1_result (lower ("grace".toList)) (pySplit (lower ("grace".toList))))) →
        c.Sublist full)) ∧
    (∀ s : Sermon,
      v1_result (lower ("grace".toList)) (pySplit (lower ("grace".toList))) s = none ↔
      score_v1 (lower ("grace".toList)) (pySplit (lower ("grace".toList))) s = 0) ∧
    (∃ full : List ResultV2,
      search_sermons_v2 [{ title := ("Grace".toList), transcript := [] }]
          ("grace".toList) 10 = full.take 10 ∧
      full.Perm ([{ title := ("Grace".toList), transcript := [] }].filterMap
        (v2_result (lower ("grace".toList)) (query_words_v2 (lower ("grace".toList))))) ∧
      full.Pairwise (fun a b => b.score ≤ a.score) ∧
      (∀ c : List ResultV2,
        c.Pairwise (fun a b => a.score = b.score) →
        c.Sublist ([{ title := ("Grace".toList), transcript := [] }].filterMap
          (v2_result (lower ("grace".toList))
            (query_words_v2 (lower ("grace".toList))))) →
        c.Sublist full)) ∧
    (∀ s : Sermon,
      v2_result (lower ("grace".toList)) (query_words_v2 (lower ("grace".toList))) s =
          none ↔
      score_v2 (query_words_v2 (lower ("grace".toList))) s = 0 ∨
        find_relevant_passages s.transcript
          (query_words_v2 (lower ("grace".toList))) 2 = []) :=
  claim_C1_ranking [{ title := ("Grace".toList), transcript := [] }]
    ("grace".toList) 10

theorem find_relevant_passages_nil (qws : List (List Char)) (mp : Nat) :
    find_relevant_passages [] qws mp = [] := by
  unfold find_relevant_passages
  simp only []
  have h1 : splitSentences ([] : List Char) = [[]] := rfl
  have h2 : sentence_entry [] qws [] = none := rfl
  rw [h1, List.filterMap_cons, h2, List.filterMap_nil, mergeSort_eval_nil _ rfl]
  simp

/-- Counterexample to C1 as stated: in `search_sermons_v2` a sermon with
nonzero score (30, from a title match) but no extractable passage (its
transcript is empty) is dropped, so the search does not return exactly
the documents with nonzero relevance score. -/
theorem claim_C1_counterexample :
    score_v2 (query_words_v2 (lower ("prayer".toList)))
      { title := ("prayer".toList), transcript := [] } = 30 ∧
    search_sermons_v2 [{ title := ("prayer".toList), transcript := [] }]
      ("prayer".toList) 10 = [] := by
  refine ⟨by decide, ?_⟩
  have hv2 : v2_result (lower ("prayer".toList))
      (query_words_v2 (lower ("prayer".toList)))
      { title := ("prayer".toList), transcript := [] } = none := by
    unfold v2_result
    simp only []
    rw [if_neg (show ¬ (score_v2 (query_words_v2 (lower ("prayer".toList)))
        { title := ("prayer".toList), transcript := [] } = 0) from by decide)]
    simp [find_relevant_passages_nil]
  unfold search_sermons_v2
  simp only []
  rw [List.filterMap_cons, hv2]
  simp only [List.filterMap_nil]
  rw [mergeSort_eval_nil _ rfl]
  exact List.take_nil

/-! ### Claim C4 -/

/-- C4 (amended): the excerpt extractor returns the empty result only
for the empty transcript; when the transcript is non-empty but no query
word longer than 3 characters occurs in it, it returns the first
`context_chars` characters of the transcript followed by an ellipsis
marker, not an empty result; and the v1 caller never skips the
extractor's output — every returned entry carries exactly the
extractor's result for its sermon, also when that result is empty. -/
theorem claim_C4_absent_term_excerpt :
    (∀ (qws : List (List Char)) (cc : Nat), find_best_excerpt [] qws cc = []) ∧
    (∀ (t : List Char) (qws : List (List Char)) (cc : Nat), t ≠ [] →
      (∀ w ∈ qws, 3 < w.length → pyIn w (lower t) = false) →
      find_best_excerpt t qws cc = t.take cc ++ dots) ∧
    (∀ (sermons : List Sermon) (q : List Char) (n : Nat) (r : ResultV1),
      r ∈ search_sermons sermons q n →
      ∃ sermon ∈ sermons,
        r.excerpt = find_best_excerpt sermon.transcript (pySplit (lower q)) 300) := by
  refine ⟨?_, ?_, ?_⟩
  · intro qws cc
    rfl
  · intro t qws cc ht hno
    unfold find_best_excerpt
    rw [if_neg (by simpa [List.isEmpty_iff] using ht)]
    simp only []
    rw [if_pos (bestPosition_eq_neg_one_iff.mpr hno)]
  · intro sermons q n r hr
    unfold search_sermons at hr
    simp only [] at hr
    have hr2 := List.mem_of_mem_take hr
    rw [List.mem_mergeSort] at hr2
    obtain ⟨sermon, hs, hv⟩ := List.mem_filterMap.mp hr2
    refine ⟨sermon, hs, ?_⟩
    unfold v1_result at hv
    simp only [] at hv
    split at hv
    · simp at hv
    · rw [Option.some.injEq] at hv
      subst hv
      rfl

/-- Witness for C4 (amended) at concrete inputs. -/
theorem claim_C4_witness :
    find_best_excerpt [] [("zzzzz".toList)] 300 = [] ∧
    find_best_excerpt ("hello world".toList) [("zzzzz".toList)] 300 =
      ("hello world".toList).take 300 ++ dots ∧
    (∃ sermon ∈ [({ title := ("Grace".toList), transcript := [] } : Sermon)],
      ({ title := ("Grace".toList), date := [], url := [], word_count := 0,
         excerpt := [], score := 10 } : ResultV1).excerpt =
        find_best_excerpt sermon.transcript (pySplit (lower ("grace".toList))) 300) :=
  ⟨claim_C4_absent_term_excerpt.1 [("zzzzz".toList)] 300,
   claim_C4_absent_term_excerpt.2.1 ("hello world".toList) [("zzzzz".toList)] 300
     (by decide) (by decide),
   claim_C4_absent_term_excerpt.2.2
     [({ title := ("Grace".toList), transcript := [] } : Sermon)]
     ("grace".toList) 10
     ({ title := ("Grace".toList), date := [], url := [], word_count := 0,
        excerpt := [], score := 10 } : ResultV1)
     (by rw [search_grace_empty_eval]; exact List.mem_singleton_self _)⟩

/-- Counterexample to C4 as stated: on a non-empty transcript containing
no query word, the extractor returns the transcript's beginning plus an
ellipsis, not an empty result; and the caller does not skip empty
results: the title-matched document with empty transcript is returned
carrying an empty excerpt. -/
theorem claim_C4_counterexample :
    find_best_excerpt ("hello world".toList) [("zzzzz".toList)] 300 =
      ("hello world".toList) ++ dots ∧
    find_best_excerpt ("hello world".toList) [("zzzzz".toList)] 300 ≠ [] ∧
    (search_sermons [{ title := ("Grace".toList), transcript := [] }]
        ("grace".toList) 10).map ResultV1.excerpt = [[]] := by
  refine ⟨by decide, by decide, ?_⟩
  rw [search_grace_empty_eval]
  rfl

/-! ### Claim C6 -/

/-- The word-boundary-safety property of claim C6 for one extracted
passage: the passage is an optional leading ellipsis marker, then a core
that occurs contiguously in the source text, then an optional trailing
marker; on each side without a marker, the character of the source text
immediately beyond the core is whitespace, or the core touches the
text's start resp. end there. -/
def BoundarySafe (t passage : List Char) : Prop :=
  ∃ pre core post m1 m2,
    t = pre ++ core ++ post ∧ passage = m1 ++ core ++ m2 ∧
    (m1 = dots ∨ (m1 = [] ∧ ∀ c, pre.getLast? = some c → isPySpace c = true)) ∧
    (m2 = dots ∨ (m2 = [] ∧ ∀ c, post.head? = some c → isPySpace c = true))

theorem pyStrip_decomp (l : List Char) :
    ∃ w1 w2, l = w1 ++ pyStrip l ++ w2 ∧
      (∀ c ∈ w1, isPySpace c = true) ∧ (∀ c ∈ w2, isPySpace c = true) := by
  refine ⟨l.takeWhile isPySpace,
    ((l.dropWhile isPySpace).reverse.takeWhile isPySpace).reverse, ?_, ?_, ?_⟩
  · unfold pyStrip
    have hd : l.dropWhile isPySpace =
        ((l.dropWhile isPySpace).reverse.dropWhile isPySpace).reverse ++
          ((l.dropWhile isPySpace).reverse.takeWhile isPySpace).reverse := by
      conv_lhs => rw [← List.reverse_reverse (l.dropWhile isPySpace),
        ← List.takeWhile_append_dropWhile isPySpace (l.dropWhile isPySpace).reverse]
      rw [List.reverse_append]
    conv_lhs => rw [← List.takeWhile_append_dropWhile isPySpace l, hd]
    rw [List.append_assoc]
  · intro c hc
    exact List.mem_takeWhile_imp hc
  · intro c hc
    rw [List.mem_reverse] at hc
    exact List.mem_takeWhile_imp hc

theorem markers_shape (X d1 : List Char) (c1 c2 : Prop) [Decidable c1] [Decidable c2] :
    (if c2 then (if c1 then d1 ++ X else X) ++ d1 else (if c1 then d1 ++ X else X)) =
      (if c1 then d1 else []) ++ X ++ (if c2 then d1 else []) := by
  split <;> split <;> simp

theorem boundarySafe_strip_slice (t : List Char) (s e : Nat) (m1 m2 : List Char)
    (h1 : m1 = dots ∨ (m1 = [] ∧ s = 0))
    (h2 : m2 = dots ∨ (m2 = [] ∧ t.length ≤ e)) :
    BoundarySafe t (m1 ++ pyStrip (pySlice t s e) ++ m2) := by
  obtain ⟨w1, w2, hdec, hw1, hw2⟩ := pyStrip_decomp (pySlice t s e)
  refine ⟨t.take s ++ w1, pyStrip (pySlice t s e), w2 ++ (t.drop s).drop (e - s),
    m1, m2, ?_, rfl, ?_, ?_⟩
  · have hsplit : t.drop s = pySlice t s e ++ (t.drop s).drop (e - s) := by
      unfold pySlice
      rw [List.take_append_drop]
    conv_lhs => rw [← List.take_append_drop s t, hsplit, hdec]
    simp [List.append_assoc]
  · rcases h1 with h | ⟨hm, hs⟩
    · exact Or.inl h
    · refine Or.inr ⟨hm, ?_⟩
      subst hs
      simp only [List.take_zero, List.nil_append]
      intro c hc
      exact hw1 c (List.mem_of_getLast?_eq_some hc)
  · rcases h2 with h | ⟨hm, he⟩
    · exact Or.inl h
    · refine Or.inr ⟨hm, ?_⟩
      have hrest : (t.drop s).drop (e - s) = [] := by
        rw [List.drop_drop, List.drop_eq_nil_iff]
        omega
      rw [hrest, List.append_nil]
      intro c hc
      refine hw2 c (List.mem_of_mem_head? ?_)
      rw [Option.mem_def]
      exact hc

theorem boundarySafe_strip_slice_if (t : List Char) (s e : Nat) :
    BoundarySafe t ((if 0 < s then dots else []) ++ pyStrip (pySlice t s e) ++
      (if e < t.length then dots else [])) := by
  by_cases h1 : 0 < s <;> by_cases h2 : e < t.length
  · rw [if_pos h1, if_pos h2]
    exact boundarySafe_strip_slice t s e dots dots (Or.inl rfl) (Or.inl rfl)
  · rw [if_pos h1, if_neg h2]
    exact boundarySafe_strip_slice t s e dots [] (Or.inl rfl) (Or.inr ⟨rfl, by omega⟩)
  · rw [if_neg h1, if_pos h2]
    exact boundarySafe_strip_slice t s e [] dots (Or.inr ⟨rfl, by omega⟩) (Or.inl rfl)
  · rw [if_neg h1, if_neg h2]
    exact boundarySafe_strip_slice t s e [] []
      (Or.inr ⟨rfl, by omega⟩) (Or.inr ⟨rfl, by omega⟩)

/-- C6: excerpt and passage boundaries never split a word: every output
of `find_best_excerpt` and every passage produced by
`find_relevant_passages` consists of optional ellipsis markers around a
core that occurs contiguously in the source text, and on each side that
carries no marker the adjacent source character is whitespace or the
core touches the text's start/end. -/
theorem claim_C6_word_boundaries :
    (∀ (t : List Char) (qws : List (List Char)) (cc : Nat),
      BoundarySafe t (find_best_excerpt t qws cc)) ∧
    (∀ (t : List Char) (qws : List (List Char)) (mp : Nat),
      ∀ p ∈ find_relevant_passages t qws mp, BoundarySafe t p) := by
  constructor
  · intro t qws cc
    unfold find_best_excerpt
    split
    · rename_i h
      rw [List.isEmpty_iff] at h
      subst h
      exact ⟨[], [], [], [], [], rfl, rfl, Or.inr ⟨rfl, by simp⟩, Or.inr ⟨rfl, by simp⟩⟩
    · simp only []
      split
      · refine ⟨[], t.take cc, t.drop cc, [], dots, ?_, ?_, Or.inr ⟨rfl, by simp⟩,
          Or.inl rfl⟩
        · simp [List.take_append_drop]
        · simp
      · rw [markers_shape]
        exact boundarySafe_strip_slice_if t _ _
  · intro t qws mp p hp
    unfold find_relevant_passages at hp
    simp only [] at hp
    rw [List.mem_map] at hp
    obtain ⟨item, hitem, rfl⟩ := hp
    unfold passage_window
    simp only []
    rw [markers_shape]
    exact boundarySafe_strip_slice_if t _ _

/-- Witness for C6 at concrete inputs: a concrete excerpt of
`find_best_excerpt`, and the single passage that
`find_relevant_passages` extracts from a concrete transcript (the
context window covers the whole transcript, which is boundary-safe). -/
theorem claim_C6_witness :
    BoundarySafe ("hello world".toList)
      (find_best_excerpt ("hello world".toList) [("hello".toList)] 300) ∧
    BoundarySafe
      ("We must continue steadfastly in prayer and never give up hope. Amen".toList)
      ("We must continue steadfastly in prayer and never give up hope. Amen".toList) := by
  constructor
  · exact claim_C6_word_boundaries.1 ("hello world".toList) [("hello".toList)] 300
  · refine claim_C6_word_boundaries.2
      ("We must continue steadfastly in prayer and never give up hope. Amen".toList)
      [("prayer".toList)] 2
      ("We must continue steadfastly in prayer and never give up hope. Amen".toList) ?_
    rw [find_relevant_passages_eval
      ("We must continue steadfastly in prayer and never give up hope. Amen".toList)
      [("prayer".toList)] 2
      (show (splitSentences
          ("We must continue steadfastly in prayer and never give up hope. Amen".toList)).filterMap
          (sentence_entry
            ("We must continue steadfastly in prayer and never give up hope. Amen".toList)
            [("prayer".toList)]) =
        [(⟨("We must continue steadfastly in prayer and never give up hope".toList),
           15, 0⟩ : ScoredSentence)] from by decide)
      (mergeSort_eval_one _ rfl)]
    rw [show (([(⟨("We must continue steadfastly in prayer and never give up hope".toList),
          15, 0⟩ : ScoredSentence)]).take 2).map
        (passage_window
          ("We must continue steadfastly in prayer and never give up hope. Amen".toList)) =
      [("We must continue steadfastly in prayer and never give up hope. Amen".toList)]
      from by decide]
    exact List.mem_singleton_self _

/-! ### Claim C3 -/

theorem phrase_component_v1_mono (ql lt ext : List Char) :
    phrase_component_v1 ql lt ≤ phrase_component_v1 ql (lt ++ ext) := by
  unfold phrase_component_v1
  by_cases h : pyIn ql lt = true
  · rw [if_pos h, if_pos (pyIn_append ext h)]
  · rw [if_neg h]
    split <;> norm_num

theorem freq_component_v1_mono (qws : List (List Char)) (lt ext : List Char) :
    freq_component_v1 qws lt ≤ freq_component_v1 qws (lt ++ ext) := by
  unfold freq_component_v1
  apply List.sum_le_sum
  intro w hw
  split
  · apply mul_le_mul_of_nonneg_right
    · exact_mod_cast pyCount_le_append w lt ext
    · norm_num
  · exact le_refl 0

theorem phrase_component_v2_mono (qws : List (List Char)) (lt ext : List Char) :
    phrase_component_v2 qws lt ≤ phrase_component_v2 qws (lt ++ ext) := by
  unfold phrase_component_v2
  split
  · by_cases h : pyIn (List.intercalate [ ' ' ] (qws.take 2)) lt = true
    · rw [if_pos h, if_pos (pyIn_append ext h)]
    · rw [if_neg h]
      split <;> omega
  · omega

theorem freq_component_v2_mono (qws : List (List Char)) (lt ext : List Char) :
    freq_component_v2 qws lt ≤ freq_component_v2 qws (lt ++ ext) := by
  unfold freq_component_v2
  apply List.sum_le_sum
  intro w hw
  have hc := pyCount_le_append w lt ext
  by_cases h1 : 0 < pyCount w lt
  · rw [if_pos h1, if_pos (by omega)]
    exact min_le_min (by omega) (le_refl 20)
  · rw [if_neg h1]
    split
    · exact Nat.zero_le _
    · exact Nat.le_refl 0

/-- C3 (amended): appending text to a document's transcript — in
particular one more occurrence of a scoring term — never decreases its
score in either variant; the per-term frequency contribution of v2
equals min(count * 2, 20), plateauing at the cap 20 from 10 occurrences
on; the per-term contribution of v1 is count * 0.5 with no cap. -/
theorem claim_C3_monotone_and_capped (ql : List Char) (qws : List (List Char))
    (s : Sermon) (extra : List Char) :
    (score_v1 ql qws s ≤
      score_v1 ql qws { s with transcript := s.transcript ++ extra }) ∧
    (score_v2 qws s ≤
      score_v2 qws { s with transcript := s.transcript ++ extra }) ∧
    (∀ w tl : List Char, freq_component_v2 [w] tl = min (pyCount w tl * 2) 20) ∧
    (∀ w tl : List Char, 10 ≤ pyCount w tl → freq_component_v2 [w] tl = 20) ∧
    (∀ w tl : List Char, 3 < w.length →
      freq_component_v1 [w] tl = (pyCount w tl : ℚ) * 0.5) := by
  have hlow : lower ({ s with transcript := s.transcript ++ extra } : Sermon).transcript =
      lower s.transcript ++ lower extra := by
    show lower (s.transcript ++ extra) = lower s.transcript ++ lower extra
    unfold lower
    exact List.map_append Char.toLower s.transcript extra
  have htitle : ({ s with transcript := s.transcript ++ extra } : Sermon).title =
      s.title := rfl
  refine ⟨?_, ?_, ?_, ?_, ?_⟩
  · rw [score_v1_decomp, score_v1_decomp, hlow, htitle]
    exact add_le_add
      (add_le_add (le_refl _)
        (phrase_component_v1_mono ql (lower s.transcript) (lower extra)))
      (freq_component_v1_mono qws (lower s.transcript) (lower extra))
  · rw [score_v2_decomp, score_v2_decomp, hlow, htitle]
    exact add_le_add
      (add_le_add (le_refl _)
        (phrase_component_v2_mono qws (lower s.transcript) (lower extra)))
      (freq_component_v2_mono qws (lower s.transcript) (lower extra))
  · intro w tl
    unfold freq_component_v2
    simp only [List.map_cons, List.map_nil, List.sum_cons, List.sum_nil]
    by_cases h : 0 < pyCount w tl
    · rw [if_pos h]
      omega
    · rw [if_neg h]
      have h0 : pyCount w tl = 0 := by omega
      rw [h0]
      omega
  · intro w tl h
    unfold freq_component_v2
    simp only [List.map_cons, List.map_nil, List.sum_cons, List.sum_nil]
    rw [if_pos (by omega)]
    omega
  · intro w tl hlen
    exact freq_component_v1_eval_one hlen rfl

set_option maxRecDepth 8000 in
/-- Witness for C3 (amended) at concrete inputs. -/
theorem claim_C3_witness :
    (score_v1 ("pray".toList) [("pray".toList)]
        { transcript := ("pray with me".toList) } ≤
      score_v1 ("pray".toList) [("pray".toList)]
        { transcript := ("pray with me".toList) ++ (" pray".toList) }) ∧
    freq_component_v2 [("pray".toList)]
      ((List.replicate 10 ("pray ".toList)).flatten) = 20 ∧
    freq_component_v1 [("pray".toList)] ("pray".toList) =
      (pyCount ("pray".toList) ("pray".toList) : ℚ) * 0.5 :=
  ⟨(claim_C3_monotone_and_capped ("pray".toList) [("pray".toList)]
      { transcript := ("pray with me".toList) } (" pray".toList)).1,
   (claim_C3_monotone_and_capped [] [] { } []).2.2.2.1
     ("pray".toList) ((List.replicate 10 ("pray ".toList)).flatten) (by decide),
   (claim_C3_monotone_and_capped [] [] { } []).2.2.2.2
     ("pray".toList) ("pray".toList) (by decide)⟩

set_option maxRecDepth 8000 in
/-- Counterexample to the cap part of C3 for v1: with 51 and then 52
occurrences of the term, the v1 per-term frequency contribution is 25.5
and then 26: it exceeds every per-term cap configured in this
repository's variants (20 in `sermon_search_app.py`; the spec also
names caps up to 25) and still strictly increases, so it does not equal
min(occurrences * perOccurrenceWeight, perTermCap) for any such cap. -/
theorem claim_C3_counterexample :
    pyCount ("word".toList) ((List.replicate 51 ("word ".toList)).flatten) = 51 ∧
    freq_component_v1 [("word".toList)]
      ((List.replicate 51 ("word ".toList)).flatten) = 51 / 2 ∧
    freq_component_v1 [("word".toList)]
      ((List.replicate 52 ("word ".toList)).flatten) = 26 ∧
    ((20 : ℚ) < 51 / 2 ∧ (25 : ℚ) < 51 / 2 ∧ (51 / 2 : ℚ) < 26) := by
  refine ⟨by decide, ?_, ?_, by norm_num⟩
  · rw [freq_component_v1_eval_one (by decide)
      (show pyCount ("word".toList) ((List.replicate 51 ("word ".toList)).flatten) = 51
        from by decide)]
    norm_num
  · rw [freq_component_v1_eval_one (by decide)
      (show pyCount ("word".toList) ((List.replicate 52 ("word ".toList)).flatten) = 52
        from by decide)]
    norm_num

/-! ### Claim C10 -/

theorem phrase_component_v1_nonneg (ql tl : List Char) :
    0 ≤ phrase_component_v1 ql tl := by
  unfold phrase_component_v1
  split <;> norm_num

theorem freq_component_v1_nonneg (qws : List (List Char)) (tl : List Char) :
    0 ≤ freq_component_v1 qws tl := by
  unfold freq_component_v1
  apply List.sum_nonneg
  intro x hx
  obtain ⟨w, _, rfl⟩ := List.mem_map.mp hx
  split
  · positivity
  · exact le_refl 0

theorem title_component_v2_eval_one {w tl : List Char} (h : pyIn w tl = true) :
    title_component_v2 [w] tl = 30 := by
  unfold title_component_v2
  simp only [List.map_cons, List.map_nil, List.sum_cons, List.sum_nil]
  rw [if_pos h]
  rfl

/-- C10: term matching is substring-based, not word-boundary-based: a
query word that occurs merely inside a longer word of the lowered title
still earns the full title bonus (so the score is at least 10 in v1 and
30 in v2), and one inside a longer word of the transcript still counts
toward the frequency component; concretely, the query "grace" scores
31/2 resp. 32 on a document whose title "Graceful" and transcript
"living gracefully" contain it only inside longer words. -/
theorem claim_C10_substring_matching :
    (∀ (ql w : List Char) (s : Sermon), w <:+: lower s.title →
      10 ≤ score_v1 ql [w] s) ∧
    (∀ (w : List Char) (s : Sermon), w <:+: lower s.title →
      30 ≤ score_v2 [w] s) ∧
    (∀ w tl : List Char, 3 < w.length → w <:+: tl →
      (1 / 2 : ℚ) ≤ freq_component_v1 [w] tl) ∧
    (∀ w tl : List Char, w ≠ [] → w <:+: tl → 2 ≤ freq_component_v2 [w] tl) ∧
    score_v1 ("grace".toList) [("grace".toList)]
      { title := ("Graceful".toList), transcript := ("living gracefully".toList) } =
        31 / 2 ∧
    score_v2 [("grace".toList)]
      { title := ("Graceful".toList), transcript := ("living gracefully".toList) } =
        32 := by
  refine ⟨?_, ?_, ?_, ?_, ?_, by decide⟩
  · intro ql w s hinf
    rw [score_v1_decomp, title_component_v1_eval_one (pyIn_iff.mpr hinf)]
    have h1 := phrase_component_v1_nonneg ql (lower s.transcript)
    have h2 := freq_component_v1_nonneg [w] (lower s.transcript)
    linarith
  · intro w s hinf
    rw [score_v2_decomp, title_component_v2_eval_one (pyIn_iff.mpr hinf)]
    omega
  · intro w tl hlen hinf
    have hne : w ≠ [] := by
      intro he; subst he; simp at hlen
    have hc : 1 ≤ pyCount w tl := pyCount_pos_of_infix hne hinf
    have hc2 : (1 : ℚ) ≤ (pyCount w tl : ℚ) := by exact_mod_cast hc
    rw [freq_component_v1_eval_one hlen rfl,
        show (0.5 : ℚ) = 1 / 2 from by norm_num]
    linarith
  · intro w tl hne hinf
    have hc : 1 ≤ pyCount w tl := pyCount_pos_of_infix hne hinf
    unfold freq_component_v2
    simp only [List.map_cons, List.map_nil, List.sum_cons, List.sum_nil]
    rw [if_pos (by omega)]
    omega
  · show score_v1 ("grace".toList) [("grace".toList)]
      ⟨("Graceful".toList), [], [], 0, [], ("living gracefully".toList)⟩ = 31 / 2
    rw [score_v1_eval _ _ _ _ _ _ _ _
      (title_component_v1_eval_one (by decide))
      (phrase_component_v1_eval_pos (by decide))
      (freq_component_v1_eval_one (by decide)
        (show pyCount ("grace".toList) (lower ("living gracefully".toList)) = 1
          from by decide))]
    norm_num

/-- Witness for C10 at concrete inputs. -/
theorem claim_C10_witness :
    10 ≤ score_v1 ("grace".toList) [("grace".toList)]
        { title := ("Graceful".toList) } ∧
    30 ≤ score_v2 [("grace".toList)] { title := ("Graceful".toList) } ∧
    (1 / 2 : ℚ) ≤ freq_component_v1 [("grace".toList)] ("graceful".toList) ∧
    2 ≤ freq_component_v2 [("grace".toList)] ("graceful".toList) :=
  ⟨claim_C10_substring_matching.1 ("grace".toList) ("grace".toList)
      { title := ("Graceful".toList) } (pyIn_iff.mp (by decide)),
   claim_C10_substring_matching.2.1 ("grace".toList)
      { title := ("Graceful".toList) } (pyIn_iff.mp (by decide)),
   claim_C10_substring_matching.2.2.1 ("grace".toList) ("graceful".toList)
      (by decide) (pyIn_iff.mp (by decide)),
   claim_C10_substring_matching.2.2.2.1 ("grace".toList) ("graceful".toList)
      (by decide) (pyIn_iff.mp (by decide))⟩

/-! ### Claim C5 -/

/-- C5: both search endpoints signal the invalid-input condition exactly
when the query string is empty (`api_search` and `api_search_v2` answer
with the 400 error payload iff the query is the empty string), and with
a non-empty query over an empty corpus each returns a well-formed
response with zero results and zero total documents, never an error. -/
theorem claim_C5_empty_query_and_empty_corpus :
    (∀ (sermons : List Sermon) (query : List Char) (n : Nat),
      api_search sermons query n = .error (("No query provided".toList), 400) ↔
        query = []) ∧
    (∀ (sermons : List Sermon) (query : List Char) (n : Nat),
      api_search_v2 sermons query n = .error (("No query provided".toList), 400) ↔
        query = []) ∧
    (∀ (query : List Char) (n : Nat), query ≠ [] →
      api_search [] query n =
        .ok { query := query, total_sermons := 0, results_count := 0, results := [] }) ∧
    (∀ (query : List Char) (n : Nat), query ≠ [] →
      api_search_v2 [] query n =
        .ok { query := query, total_sermons := 0, results_count := 0,
              summary := none, results := [] }) := by
  refine ⟨?_, ?_, ?_, ?_⟩
  · intro sermons query n
    unfold api_search
    by_cases h : query = []
    · subst h; simp
    · rw [if_neg (by simpa [List.isEmpty_iff] using h)]
      simp [h]
  · intro sermons query n
    unfold api_search_v2
    by_cases h : query = []
    · subst h; simp
    · rw [if_neg (by simpa [List.isEmpty_iff] using h)]
      simp [h]
  · intro query n hq
    unfold api_search
    rw [if_neg (by simpa [List.isEmpty_iff] using hq), search_sermons_nil]
    rfl
  · intro query n hq
    unfold api_search_v2
    rw [if_neg (by simpa [List.isEmpty_iff] using hq), search_sermons_v2_nil]
    rfl

/-- Witness for C5 at concrete inputs. -/
theorem claim_C5_witness :
    (api_search [] ("prayer".toList) 10 =
      .ok { query := ("prayer".toList), total_sermons := 0, results_count := 0,
            results := [] }) ∧
    (api_search_v2 [] ("prayer".toList) 10 =
      .ok { query := ("prayer".toList), total_sermons := 0, results_count := 0,
            summary := none, results := [] }) ∧
    (api_search [] [] 10 = .error (("No query provided".toList), 400)) :=
  ⟨claim_C5_empty_query_and_empty_corpus.2.2.1 ("prayer".toList) 10 (by decide),
   claim_C5_empty_query_and_empty_corpus.2.2.2 ("prayer".toList) 10 (by decide),
   (claim_C5_empty_query_and_empty_corpus.1 [] [] 10).mpr rfl⟩

/-! ### Claim C7 -/

/-- C7: when no token of the query reaches the configured minimum length
of 5, `search_sermons_v2`'s analyzer falls back to all tokens longer
than 3 characters with no further filtering, so the analyzed term set is
non-empty whenever the raw query contains a token longer than
3 characters. -/
theorem query_words_v2_eq (ql : List Char) :
    query_words_v2 ql =
      if ((pySplit ql).filter (fun w => 5 ≤ w.length)).isEmpty then
        (pySplit ql).filter (fun w => 3 < w.length)
      else (pySplit ql).filter (fun w => 5 ≤ w.length) := rfl

theorem claim_C7_fallback (query : List Char) :
    ((pySplit (lower query)).filter (fun w => 5 ≤ w.length) = [] →
      query_words_v2 (lower query) =
        (pySplit (lower query)).filter (fun w => 3 < w.length)) ∧
    (∀ w ∈ pySplit query, 3 < w.length → query_words_v2 (lower query) ≠ []) := by
  constructor
  · intro h
    rw [query_words_v2_eq, if_pos (by simpa [List.isEmpty_iff] using h)]
  · intro w hw hlen
    have hw2 : lower w ∈ pySplit (lower query) := by
      rw [pySplit_lower]
      exact List.mem_map_of_mem lower hw
    have hlen2 : 3 < (lower w).length := by rw [length_lower]; exact hlen
    rw [query_words_v2_eq]
    split
    · exact List.ne_nil_of_mem (List.mem_filter.mpr ⟨hw2, by simpa using hlen2⟩)
    · rename_i h
      simpa [List.isEmpty_iff] using h

/-- Witness for C7: the query has no 5-character token, and the fallback
set is non-empty thanks to its 4-character token. -/
theorem claim_C7_witness :
    query_words_v2 (lower ("what is hope".toList)) ≠ [] ∧
    query_words_v2 (lower ("what is hope".toList)) =
      (pySplit (lower ("what is hope".toList))).filter (fun w => 3 < w.length) :=
  ⟨(claim_C7_fallback ("what is hope".toList)).2 ("hope".toList) (by decide) (by decide),
   (claim_C7_fallback ("what is hope".toList)).1 (by decide)⟩

/-! ### Claim C9 -/

theorem greedy_select_cons (minGap maxSegments : Nat) (chosen : List Segment)
    (cand : Segment) (rest : List Segment) :
    greedy_select minGap maxSegments chosen (cand :: rest) =
      if maxSegments ≤ chosen.length then chosen
      else if farEnough minGap chosen cand then
        greedy_select minGap maxSegments (chosen ++ [cand]) rest
      else greedy_select minGap maxSegments chosen rest := rfl

theorem greedy_select_pairwise (minGap maxSegments : Nat) :
    ∀ (cands chosen : List Segment),
      chosen.Pairwise (fun a b => minGap < Nat.dist a.seconds b.seconds) →
      (greedy_select minGap maxSegments chosen cands).Pairwise
        (fun a b => minGap < Nat.dist a.seconds b.seconds)
  | [], _, h => h
  | cand :: rest, chosen, h => by
    rw [greedy_select_cons]
    split
    · exact h
    · split
      · rename_i hfar
        refine greedy_select_pairwise minGap maxSegments rest (chosen ++ [cand]) ?_
        rw [List.pairwise_append]
        refine ⟨h, List.pairwise_singleton _ _, ?_⟩
        intro a ha b hb
        rw [List.mem_singleton] at hb
        subst hb
        have := List.all_eq_true.mp hfar a ha
        simpa using this
      · exact greedy_select_pairwise minGap maxSegments rest chosen h

/-- C9: segment selection never returns two selected segments whose
`seconds` values differ by less than the configured minimum gap
(spec-modelled Segment Selector; the greedy acceptance rule enforces the
gap for every selected pair, so the property holds without exception). -/
theorem claim_C9_min_gap (segments : List Segment) (terms : List (List Char))
    (weight minGap maxSegments : Nat) :
    (select_segments segments terms weight minGap maxSegments).Pairwise
      (fun a b => ¬ Nat.dist a.seconds b.seconds < minGap) := by
  unfold select_segments
  refine ((List.mergeSort_perm _ _).pairwise_iff ?_).mpr ?_
  · intro x y h
    rwa [Nat.dist_comm]
  · exact List.Pairwise.imp (fun h => Nat.not_lt.mpr (Nat.le_of_lt h))
      (greedy_select_pairwise minGap maxSegments _ [] List.Pairwise.nil)
example : pyIn ("ell".toList) ("hello".toList) = true := by decide
example : pyIn ("elo".toList) ("hello".toList) = false := by decide
example : pyFind ("l".toList) ("hello".toList) = 2 := by decide
example : pyFind ("z".toList) ("hello".toList) = -1 := by decide
example : pyCount ("aa".toList) ("aaa".toList) = 1 := by decide
example : pyCount ("ab".toList) ("abaab".toList) = 2 := by decide
example : pyStrip ("  hi there\n".toList) = ("hi there".toList) := by decide
example : lower ("Hello".toList) = ("hello".toList) := by decide

end SermonSearch
